import Mathlib

/-!
Verification development for the MCP registry seed-data fetcher
(scripts/fetch-seed-data.py).

The script is a single linear pipeline: fetch a JSON array over HTTP,
select an evenly spaced sample of the records, rewrite the `name`,
`description` and `version` fields of the selected records, write the
sample to a JSON file and re-read it for a structural validation pass.

The embedding below is a shallow one:

* JSON values are the inductive `Json`.
* A registry record (per the data model, a mapping with at least a
  string `name` and optional `description` / `version`) is the
  structure `Record`; all remaining key/value pairs of the mapping are
  kept verbatim in `extra`.
* Python `int` is `Int`; Python floor division `//` is `Int.fdiv`
  (both round towards negative infinity), and `n // 0` raising
  `ZeroDivisionError` is an explicit branch.
* Python list indexing (`full_data[i]`, which accepts negative indices
  and raises `IndexError` out of range) is `pyIndex`.
* Exceptions are modelled with `Except PyError`.
* The filesystem is the single output file, `World.file`; `none` means
  the file does not exist.  Writing is replaced by storing the
  serialized JSON document; the JSON text serialization step itself is
  not modelled (Python `json.dump` / `json.load` round-trip on the
  documents produced here).
-/

/-- JSON values, the shape of the data the script manipulates. -/
inductive Json where
  | null : Json
  | bool (b : Bool) : Json
  | num (n : Int) : Json
  | str (s : String) : Json
  | arr (elems : List Json) : Json
  | obj (fields : List (String × Json)) : Json

/-- Whether a JSON value is an array (Python `isinstance(data, list)`). -/
def Json.isArr : Json → Bool
  | .arr _ => true
  | _ => false

/-- The exception kinds the script can raise. -/
inductive PyError where
  | httpError : PyError
  | jsonDecodeError : PyError
  | typeError : PyError
  | zeroDivisionError : PyError
  | indexError : PyError

/-- A registry record: a JSON mapping with a required string `name`
and optional string `description` and `version` (the fields the script
touches); every other key/value pair of the mapping is kept, in order,
in `extra`. -/
structure Record where
  name : String
  description : Option String
  version : Option String
  extra : List (String × Json)

instance : Inhabited Record := ⟨⟨"", none, none, []⟩⟩

/-- Python `len(data)` on a parsed JSON value: defined for arrays,
mappings and strings, a `TypeError` (`none`) for numbers, booleans and
null. -/
def pyLen : Json → Option Nat
  | .arr elems => some elems.length
  | .obj fields => some fields.length
  | .str s => some s.length
  | _ => none

/-- `fetch_seed_data`, after the HTTP GET: a non-200 status raises
(`raise Exception(...)`); otherwise the body is given to `json.loads`,
whose outcome is modelled by `body` (`none` = the body is not valid
JSON, so `json.loads` raises `JSONDecodeError`; `some v` = it parses
to the value `v`).  The success path then evaluates `len(data)` for
the "Successfully fetched ..." message — a `TypeError` for scalar
values — and returns the parsed value as is: the source has no check
that it is an array. -/
def fetch_seed_data (status : Int) (body : Option Json) : Except PyError Json :=
  if status ≠ 200 then Except.error PyError.httpError
  else
    match body with
    | none => Except.error PyError.jsonDecodeError
    | some v =>
      match pyLen v with
      | none => Except.error PyError.typeError
      | some _ => Except.ok v

/-- Chars strictly after the first '/' of a char list, `none` when no
'/' occurs.  `afterSlash s.data = some rest` exactly models Python
`s.split('/', 1)[-1]` in the case `'/' in s`. -/
def afterSlash : List Char → Option (List Char)
  | [] => none
  | c :: cs => if c = '/' then some cs else afterSlash cs

/-- `original_name.split('/', 1)[-1] if '/' in original_name else
original_name`: everything after the first '/', or the whole name when
it has no '/'. -/
def namespacePart (name : String) : String :=
  match afterSlash name.data with
  | some rest => String.mk rest
  | none => name

/-- The body of the `for server in sample` loop of `create_sample_data`,
as a pure record transformer (the source mutates the dict in place):
`name` is moved under the anonymous namespace, `description` gets the
"[DEMO] " tag (with "No description" for a missing description), and a
missing or falsy (empty) `version` becomes "1.0.0". -/
def transform_server (server : Record) : Record :=
  { server with
    name := "io.modelcontextprotocol.anonymous/" ++ namespacePart server.name
    description := some ("[DEMO] " ++ (match server.description with
      | some d => d
      | none => "No description"))
    version := match server.version with
      | none => some "1.0.0"
      | some v => if v = "" then some "1.0.0" else some v }

/-- Python list indexing `xs[i]`: a negative index counts from the
end, an index out of range gives `none` (`IndexError`). -/
def pyIndex (xs : List Record) (i : Int) : Option Record :=
  let j : Int := if i < 0 then i + xs.length else i
  if 0 ≤ j ∧ j < (xs.length : Int) then xs[j.toNat]? else none

/-- The list comprehension `[full_data[i] for i in sample_indices]`:
evaluates left to right, `none` as soon as one index is out of range. -/
def pyGather (xs : List Record) : List Int → Option (List Record)
  | [] => some []
  | i :: rest =>
    match pyIndex xs i, pyGather xs rest with
    | some r, some rs => some (r :: rs)
    | _, _ => none

/-- `create_sample_data(full_data, sample_size)`.  If the data fits in
the requested size it is returned verbatim.  Otherwise
`step = total_servers // sample_size` (Python floor division, raising
`ZeroDivisionError` when `sample_size` is 0), the records at indices
`i * step` for `i in range(sample_size)` are gathered, and each is
rewritten by the mutation loop (`transform_server`). -/
def create_sample_data (full_data : List Record) (sample_size : Int) : Except PyError (List Record) :=
  let total_servers : Int := full_data.length
  if total_servers ≤ sample_size then
    Except.ok full_data
  else if sample_size = 0 then
    Except.error PyError.zeroDivisionError
  else
    let step : Int := Int.fdiv total_servers sample_size
    let sample_indices : List Int :=
      (List.range sample_size.toNat).map (fun (i : Nat) => (i : Int) * step)
    match pyGather full_data sample_indices with
    | none => Except.error PyError.indexError
    | some sample => Except.ok (sample.map transform_server)

/-- The index list `sample_indices` that `create_sample_data` builds in
its sampling branch, and the empty list on the paths where the mutation
loop is never reached (data returned verbatim, or `ZeroDivisionError`
raised before any record is touched).  These are exactly the positions
of `full_data` whose records the in-place loop rewrites. -/
def selected_indices (full_data : List Record) (sample_size : Int) : List Int :=
  if (full_data.length : Int) ≤ sample_size then []
  else if sample_size = 0 then []
  else (List.range sample_size.toNat).map
    (fun (i : Nat) => (i : Int) * Int.fdiv full_data.length sample_size)

/-- Rewrite the records sitting at the positions listed in `sel`,
counting positions from `j`. -/
def mutateAux (sel : List Int) : Nat → List Record → List Record
  | _, [] => []
  | j, rec :: rest =>
    (if (j : Int) ∈ sel then transform_server rec else rec) :: mutateAux sel (j + 1) rest

/-- The in-place effect of `create_sample_data` on its `full_data`
argument: the records of `sample` alias the records of `full_data`, so
the mutation loop rewrites `full_data` exactly at the positions in
`sample_indices` and leaves every other position untouched. -/
def mutate_full_data (full_data : List Record) (sample_size : Int) : List Record :=
  mutateAux (selected_indices full_data sample_size) 0 full_data

/-- Serialization of a record back to the JSON mapping it came from:
the `name` / `description` / `version` keys it carries plus the
untouched remaining pairs. -/
def record_to_json (rec : Record) : Json :=
  Json.obj (("name", Json.str rec.name)
    :: ((match rec.description with
          | some d => [("description", Json.str d)]
          | none => [])
        ++ (match rec.version with
            | some v => [("version", Json.str v)]
            | none => [])
        ++ rec.extra))

/-- `field in server` for a JSON mapping (the validator only ever asks
this of the elements of the written array, which are mappings). -/
def json_has_field (j : Json) (f : String) : Bool :=
  match j with
  | Json.obj fields => fields.any (fun p => p.1 == f)
  | _ => false

/-- `validate_sample_data`, applied to the parsed contents of the
sample file: the document must be an array (`isinstance(data, list)`),
non-empty, and every element must have the `name`, `description` and
`version` keys; any `ValueError` is caught and turned into `false`. -/
def validate_sample_data (doc : Json) : Bool :=
  match doc with
  | Json.arr servers =>
    if servers.length = 0 then false
    else servers.all (fun s =>
      json_has_field s "name" && json_has_field s "description" && json_has_field s "version")
  | _ => false

/-- The filesystem as the script sees it: the one output file, `none`
when no file exists at the output path. -/
structure World where
  file : Option Json

/-- `save_sample_data`: serialize the sample and write it to the
output file, truncating whatever was there. -/
def save_sample_data (sample_data : List Record) (w : World) : World :=
  { w with file := some (Json.arr (sample_data.map record_to_json)) }

/-- The `try` block of `main`, from the fetch on: `status`/`body` are
the HTTP response (as in `fetch_seed_data`, with `body` specialized to
the array-of-records documents the pipeline consumes; `none` = the
body is not valid JSON), `writeOk` tells whether the filesystem write
succeeds, and `w` is the initial state of the output file.  Returns
the process exit code and the final file state: every exception
reaches the top-level handler and becomes `sys.exit(1)`, a failed
validation is an explicit `sys.exit(1)`, and falling off the end of
`main` exits 0. -/
def run_main (status : Int) (body : Option (List Record)) (sample_size : Int)
    (writeOk : Bool) (w : World) : Nat × World :=
  if status ≠ 200 then (1, w)
  else
    match body with
    | none => (1, w)
    | some full_data =>
      match create_sample_data full_data sample_size with
      | Except.error _ => (1, w)
      | Except.ok sample =>
        if writeOk then
          let w2 := save_sample_data sample w
          match w2.file with
          | some doc => if validate_sample_data doc then (0, w2) else (1, w2)
          | none => (1, w2)
        else (1, w)

/-! ### Helper lemmas about the embedded operations -/

/-- A concrete record used to instantiate the theorems below: the
record of spec scenario B (slash-separated name, no description, no
version). -/
def acmeRecord : Record :=
  { name := "acme/tool", description := none, version := none, extra := [] }

/-- A concrete record with all three fields present. -/
def demoFullRecord : Record :=
  { name := "io.x/y", description := some "desc", version := some "1.2.3", extra := [] }

lemma pyIndex_of_nonneg (xs : List Record) (i : Int) (h0 : 0 ≤ i) (h1 : i.toNat < xs.length) :
    pyIndex xs i = some (xs.getD i.toNat default) := by
  simp only [pyIndex]
  have hneg : ¬ i < 0 := by omega
  rw [if_neg hneg, if_pos ⟨h0, by omega⟩]
  rw [List.getElem?_eq_getElem h1, List.getD_eq_getElem?_getD, List.getElem?_eq_getElem h1]
  rfl

lemma pyGather_eq_map (xs : List Record) :
    ∀ is : List Int, (∀ i ∈ is, 0 ≤ i ∧ i.toNat < xs.length) →
      pyGather xs is = some (is.map (fun i => xs.getD i.toNat default))
  | [], _ => rfl
  | i :: rest, h => by
    have hi := h i (List.mem_cons_self i rest)
    have hrest : ∀ j ∈ rest, 0 ≤ j ∧ j.toNat < xs.length :=
      fun j hj => h j (List.mem_cons_of_mem i hj)
    simp only [pyGather, pyIndex_of_nonneg xs i hi.1 hi.2, pyGather_eq_map xs rest hrest,
      List.map_cons]

/-- The spread-sample indices stay inside the data: for `1 ≤ kN < n`,
`j * (n / kN) < n` whenever `j < kN`. -/
lemma sample_index_lt (n kN j : Nat) (hk : 1 ≤ kN) (hn : kN < n) (hj : j < kN) :
    j * (n / kN) < n := by
  have hs1 : 1 ≤ n / kN := (Nat.one_le_div_iff (by omega)).mpr (by omega)
  have h2 : j * (n / kN) + n / kN ≤ kN * (n / kN) := by
    have h21 : (j + 1) * (n / kN) ≤ kN * (n / kN) := Nat.mul_le_mul_right _ hj
    calc j * (n / kN) + n / kN = (j + 1) * (n / kN) := by ring
    _ ≤ kN * (n / kN) := h21
  have h3 : kN * (n / kN) ≤ n := Nat.mul_div_le n kN
  omega

lemma cast_mul_toNat (j s : Nat) : ((j : Int) * (s : Int)).toNat = j * s := by
  rw [← Nat.cast_mul, Int.toNat_natCast]

/-- Closed form of `create_sample_data` in its sampling branch
(`1 ≤ k < n`): the records at indices `j * (n / k)` for
`j in range k`, each rewritten by the mutation loop. -/
lemma create_sample_data_pos (full : List Record) (k : Int)
    (h1 : 1 ≤ k) (h2 : k < (full.length : Int)) :
    create_sample_data full k =
      Except.ok (((List.range k.toNat).map
        (fun j => full.getD (j * (full.length / k.toNat)) default)).map transform_server) := by
  have hk : ((k.toNat : Nat) : Int) = k := by omega
  have hkN1 : 1 ≤ k.toNat := by omega
  have hkNn : k.toNat < full.length := by omega
  simp only [create_sample_data]
  rw [if_neg (by omega), if_neg (by omega)]
  have hstep : Int.fdiv (full.length : Int) k = ((full.length / k.toNat : Nat) : Int) := by
    conv_lhs => rw [← hk]
    rw [← Int.ofNat_fdiv]
  rw [hstep]
  have hbounds : ∀ i ∈ (List.range k.toNat).map
      (fun (i : Nat) => (i : Int) * ((full.length / k.toNat : Nat) : Int)),
      0 ≤ i ∧ i.toNat < full.length := by
    intro i hi
    rcases List.mem_map.mp hi with ⟨j, hj, rfl⟩
    have hjlt : j < k.toNat := List.mem_range.mp hj
    have hlt : j * (full.length / k.toNat) < full.length :=
      sample_index_lt full.length k.toNat j hkN1 hkNn hjlt
    refine ⟨by positivity, ?_⟩
    rw [cast_mul_toNat]
    exact hlt
  rw [pyGather_eq_map full _ hbounds]
  have hlist : ((List.range k.toNat).map
        (fun (i : Nat) => (i : Int) * ((full.length / k.toNat : Nat) : Int))).map
        (fun i => full.getD i.toNat default) =
      (List.range k.toNat).map
        (fun j => full.getD (j * (full.length / k.toNat)) default) := by
    rw [List.map_map]
    apply List.map_congr_left
    intro j hj
    simp only [Function.comp_apply]
    rw [cast_mul_toNat]
  rw [hlist]

lemma afterSlash_none_no_slash : ∀ cs : List Char, afterSlash cs = none → '/' ∉ cs
  | [], _, h => by cases h
  | c :: cs, h, hmem => by
    by_cases hc : c = '/'
    · simp [afterSlash, hc] at h
    · simp only [afterSlash, if_neg hc] at h
      rcases List.mem_cons.mp hmem with rfl | hmem2
      · exact hc rfl
      · exact afterSlash_none_no_slash cs h hmem2

lemma afterSlash_some_split : ∀ cs rest : List Char, afterSlash cs = some rest →
    ∃ pre, cs = pre ++ '/' :: rest ∧ '/' ∉ pre
  | [], rest, h => by cases h
  | c :: cs, rest, h => by
    by_cases hc : c = '/'
    · subst hc
      have h2 : cs = rest := by simpa [afterSlash] using h
      exact ⟨[], by rw [h2]; rfl, by simp⟩
    · simp only [afterSlash, if_neg hc] at h
      rcases afterSlash_some_split cs rest h with ⟨pre, hpre, hnotin⟩
      exact ⟨c :: pre, by rw [List.cons_append, hpre], by
        intro hmem
        rcases List.mem_cons.mp hmem with heq | hmem2
        · exact hc heq.symm
        · exact hnotin hmem2⟩

/-- A name with no '/' is its own local part. -/
lemma namespacePart_of_no_slash (name : String) (h : '/' ∉ name.data) :
    namespacePart name = name := by
  unfold namespacePart
  cases hres : afterSlash name.data with
  | none => rfl
  | some rest =>
    rcases afterSlash_some_split name.data rest hres with ⟨pre, hpre, _⟩
    exact absurd (by rw [hpre]; simp) h

/-- For a name with a '/', the local part is exactly what follows the
first '/'. -/
lemma namespacePart_of_slash (name : String) (h : '/' ∈ name.data) :
    ∃ pre, name.data = pre ++ '/' :: (namespacePart name).data ∧ '/' ∉ pre := by
  unfold namespacePart
  cases hres : afterSlash name.data with
  | none => exact absurd h (afterSlash_none_no_slash name.data hres)
  | some rest => exact afterSlash_some_split name.data rest hres

lemma transform_server_name (r : Record) :
    (transform_server r).name = "io.modelcontextprotocol.anonymous/" ++ namespacePart r.name := rfl

lemma transform_server_description (r : Record) :
    (transform_server r).description =
      some ("[DEMO] " ++ (match r.description with
        | some d => d
        | none => "No description")) := rfl

lemma transform_server_extra (r : Record) : (transform_server r).extra = r.extra := rfl

lemma mutateAux_length (sel : List Int) :
    ∀ (xs : List Record) (j : Nat), (mutateAux sel j xs).length = xs.length
  | [], _ => rfl
  | _ :: xs, j => by
    simp only [mutateAux, List.length_cons, mutateAux_length sel xs (j + 1)]

lemma mutateAux_lookup (sel : List Int) :
    ∀ (xs : List Record) (j i : Nat),
      (mutateAux sel j xs)[i]? =
        (xs[i]?).map (fun r => if ((j + i : Nat) : Int) ∈ sel then transform_server r else r)
  | [], j, i => by simp [mutateAux]
  | x :: xs, j, 0 => by simp [mutateAux]
  | x :: xs, j, i + 1 => by
    simp only [mutateAux, List.getElem?_cons_succ]
    rw [mutateAux_lookup sel xs (j + 1) i, show j + 1 + i = j + (i + 1) from by omega]

/-- A serialized record with a present description and version has all
three required keys. -/
lemma record_json_fields (r : Record) (d v : String)
    (hd : r.description = some d) (hv : r.version = some v) :
    (json_has_field (record_to_json r) "name"
      && json_has_field (record_to_json r) "description"
      && json_has_field (record_to_json r) "version") = true := by
  simp only [record_to_json, json_has_field, hd, hv, List.any_cons, List.any_append]
  simp

/-! ### The claims -/

/-- C1: for `n > k ≥ 1`, `create_sample_data` returns exactly `k`
records, taken from the input at source indices `0, step, 2*step, ...,
(k-1)*step` with `step = n / k`; these indices are strictly
increasing and all below `n`. -/
theorem create_sample_data_spread (full : List Record) (k : Int)
    (h1 : 1 ≤ k) (h2 : k < (full.length : Int)) :
    ∃ s, create_sample_data full k = Except.ok s ∧
      (s.length : Int) = k ∧
      (∀ j, j < k.toNat → j * (full.length / k.toNat) < full.length) ∧
      (∀ j j', j < j' → j' < k.toNat →
        j * (full.length / k.toNat) < j' * (full.length / k.toNat)) ∧
      (∀ j, j < k.toNat →
        s[j]? = (full[(j * (full.length / k.toNat))]?).map transform_server) := by
  have hkN1 : 1 ≤ k.toNat := by omega
  have hkNn : k.toNat < full.length := by omega
  have hstep1 : 1 ≤ full.length / k.toNat :=
    (Nat.one_le_div_iff (by omega)).mpr (by omega)
  refine ⟨_, create_sample_data_pos full k h1 h2, ?_, ?_, ?_, ?_⟩
  · simp only [List.length_map, List.length_range]
    omega
  · intro j hj
    exact sample_index_lt full.length k.toNat j hkN1 hkNn hj
  · intro j j' hjj' _
    exact (Nat.mul_lt_mul_right hstep1).mpr hjj'
  · intro j hj
    have hlt : j * (full.length / k.toNat) < full.length :=
      sample_index_lt full.length k.toNat j hkN1 hkNn hj
    rw [List.getElem?_map, List.getElem?_map, List.getElem?_range hj,
      List.getElem?_eq_getElem hlt]
    simp only [Option.map_some']
    rw [List.getD_eq_getElem full default hlt]

/-- C1 witness: the theorem applied to two records and `k = 1`. -/
theorem create_sample_data_spread_witness :
    (1 ≤ (1 : Int)) ∧ ((1 : Int) < (([acmeRecord, acmeRecord] : List Record).length : Int)) ∧
    (∃ s, create_sample_data [acmeRecord, acmeRecord] 1 = Except.ok s ∧
      (s.length : Int) = 1 ∧
      (∀ j, j < (1 : Int).toNat →
        j * ([acmeRecord, acmeRecord].length / (1 : Int).toNat) <
          ([acmeRecord, acmeRecord] : List Record).length) ∧
      (∀ j j', j < j' → j' < (1 : Int).toNat →
        j * ([acmeRecord, acmeRecord].length / (1 : Int).toNat) <
          j' * ([acmeRecord, acmeRecord].length / (1 : Int).toNat)) ∧
      (∀ j, j < (1 : Int).toNat →
        s[j]? = (([acmeRecord, acmeRecord] : List Record)[(j * ([acmeRecord, acmeRecord].length / (1 : Int).toNat))]?).map transform_server)) :=
  ⟨by decide, by decide, create_sample_data_spread [acmeRecord, acmeRecord] 1 (by decide) (by decide)⟩

/-- C2: for `n ≤ k`, `create_sample_data` returns the full input
sequence verbatim, with no rewriting applied to any record. -/
theorem create_sample_data_verbatim_small (full : List Record) (k : Int)
    (h : (full.length : Int) ≤ k) :
    create_sample_data full k = Except.ok full := by
  simp only [create_sample_data]
  rw [if_pos h]

/-- C2 witness: 1 record, `k = 10` (spec scenario A shape). -/
theorem create_sample_data_verbatim_small_witness :
    ((([acmeRecord] : List Record).length : Int) ≤ 10) ∧
    create_sample_data [acmeRecord] 10 = Except.ok [acmeRecord] :=
  ⟨by decide, create_sample_data_verbatim_small [acmeRecord] 10 (by decide)⟩

/-- C3: for `n > k ≥ 1`, each selected record of the output has
`name = "io.modelcontextprotocol.anonymous/" ++ local-part` where
local-part is everything after the first '/' of the original name (the
whole original name when it has no '/'), `description = "[DEMO] " ++
original` (or `"[DEMO] No description"` when absent), and `version`
unchanged unless it was absent or empty, in which case it is
`"1.0.0"`. -/
theorem create_sample_data_rewrite_rules (full : List Record) (k : Int)
    (h1 : 1 ≤ k) (h2 : k < (full.length : Int)) (s : List Record)
    (hs : create_sample_data full k = Except.ok s) :
    ∀ j orig r, full[(j * (full.length / k.toNat))]? = some orig → s[j]? = some r →
      (r.name = "io.modelcontextprotocol.anonymous/" ++ namespacePart orig.name
       ∧ ('/' ∈ orig.name.data →
           ∃ pre, orig.name.data = pre ++ '/' :: (namespacePart orig.name).data ∧ '/' ∉ pre)
       ∧ ('/' ∉ orig.name.data → namespacePart orig.name = orig.name)
       ∧ r.description = some ("[DEMO] " ++ (match orig.description with
           | some d => d
           | none => "No description"))
       ∧ ((orig.version = none ∨ orig.version = some "") → r.version = some "1.0.0")
       ∧ (∀ v, orig.version = some v → v ≠ "" → r.version = some v)) := by
  rw [create_sample_data_pos full k h1 h2] at hs
  injection hs with hs
  subst hs
  intro j orig r horig hr
  have hj : j < k.toNat := by
    by_contra hge
    rw [List.getElem?_eq_none] at hr
    · cases hr
    · simp only [List.length_map, List.length_range]
      omega
  have hlt : j * (full.length / k.toNat) < full.length := by
    rcases List.getElem?_eq_some_iff.mp horig with ⟨hbnd, _⟩
    exact hbnd
  have horig2 : full.getD (j * (full.length / k.toNat)) default = orig := by
    rw [List.getD_eq_getElem full default hlt]
    exact (List.getElem?_eq_some_iff.mp horig).2 ▸ rfl
  have hr2 : r = transform_server orig := by
    rw [List.getElem?_map, List.getElem?_map, List.getElem?_range hj] at hr
    simp only [Option.map_some', Option.some_inj] at hr
    rw [← hr, horig2]
  subst hr2
  refine ⟨transform_server_name orig, namespacePart_of_slash orig.name,
    namespacePart_of_no_slash orig.name, transform_server_description orig, ?_, ?_⟩
  · rintro (hv | hv) <;> simp [transform_server, hv]
  · intro v hv hne
    simp [transform_server, hv, hne]

/-- C3 witness: the theorem applied to spec scenario B's record
(`name = "acme/tool"`, no description, no version) at output index 0. -/
theorem create_sample_data_rewrite_rules_witness :
    (1 ≤ (1 : Int)) ∧ ((1 : Int) < (([acmeRecord, acmeRecord] : List Record).length : Int)) ∧
    create_sample_data [acmeRecord, acmeRecord] 1 = Except.ok [transform_server acmeRecord] ∧
    ((transform_server acmeRecord).name =
        "io.modelcontextprotocol.anonymous/" ++ namespacePart acmeRecord.name
     ∧ ('/' ∈ acmeRecord.name.data →
         ∃ pre, acmeRecord.name.data =
           pre ++ '/' :: (namespacePart acmeRecord.name).data ∧ '/' ∉ pre)
     ∧ ('/' ∉ acmeRecord.name.data → namespacePart acmeRecord.name = acmeRecord.name)
     ∧ (transform_server acmeRecord).description =
         some ("[DEMO] " ++ (match acmeRecord.description with
           | some d => d
           | none => "No description"))
     ∧ ((acmeRecord.version = none ∨ acmeRecord.version = some "") →
         (transform_server acmeRecord).version = some "1.0.0")
     ∧ (∀ v, acmeRecord.version = some v → v ≠ "" →
         (transform_server acmeRecord).version = some v)) :=
  ⟨by decide, by decide, rfl,
    create_sample_data_rewrite_rules [acmeRecord, acmeRecord] 1 (by decide) (by decide)
      [transform_server acmeRecord] rfl 0 acmeRecord (transform_server acmeRecord) rfl rfl⟩

/-- C4 counterexample: with 1 record and `k = 10` the record comes
back verbatim and its name "acme/tool" does not start with the
anonymous-namespace prefix, so not every output record's name does. -/
theorem anon_namespace_cex :
    create_sample_data [acmeRecord] 10 = Except.ok [acmeRecord]
    ∧ ¬ ∃ rest, acmeRecord.name = "io.modelcontextprotocol.anonymous/" ++ rest := by
  refine ⟨rfl, ?_⟩
  rintro ⟨rest, hrest⟩
  have hlen := congrArg String.length hrest
  rw [String.length_append] at hlen
  have h9 : acmeRecord.name.length = 9 := rfl
  have h34 : ("io.modelcontextprotocol.anonymous/" : String).length = 34 := rfl
  omega

/-- C4 (amended to the sampling case `n > k`): every record of a
successfully produced sample has a name starting with the literal
prefix "io.modelcontextprotocol.anonymous/". -/
theorem anon_namespace_after_sampling (full : List Record) (k : Int)
    (h : k < (full.length : Int)) (s : List Record)
    (hs : create_sample_data full k = Except.ok s) :
    ∀ r ∈ s, ∃ rest, r.name = "io.modelcontextprotocol.anonymous/" ++ rest := by
  by_cases hk1 : 1 ≤ k
  · rw [create_sample_data_pos full k hk1 h] at hs
    injection hs with hs
    subst hs
    intro r hr
    rcases List.mem_map.mp hr with ⟨x, _, rfl⟩
    exact ⟨namespacePart x.name, transform_server_name x⟩
  · by_cases hk0 : k = 0
    · subst hk0
      simp only [create_sample_data] at hs
      rw [if_neg (by omega), if_true] at hs
      cases hs
    · simp only [create_sample_data] at hs
      rw [if_neg (by omega), if_neg hk0] at hs
      have hz : k.toNat = 0 := by omega
      rw [hz] at hs
      simp only [List.range_zero, List.map_nil] at hs
      injection hs with hs
      subst hs
      intro r hr
      cases hr

/-- C4 witness: the amended theorem applied to two records, `k = 1`. -/
theorem anon_namespace_after_sampling_witness :
    ((1 : Int) < (([acmeRecord, acmeRecord] : List Record).length : Int)) ∧
    create_sample_data [acmeRecord, acmeRecord] 1 = Except.ok [transform_server acmeRecord] ∧
    ∃ rest, (transform_server acmeRecord).name = "io.modelcontextprotocol.anonymous/" ++ rest :=
  ⟨by decide, rfl,
    anon_namespace_after_sampling [acmeRecord, acmeRecord] 1 (by decide)
      [transform_server acmeRecord] rfl (transform_server acmeRecord)
      (List.mem_cons_self _ _)⟩

/-- C5 counterexample: `k = 0` with a non-empty input raises
`ZeroDivisionError` (the `total_servers // sample_size` of line 49)
instead of returning an empty sample. -/
theorem sample_size_zero_cex :
    create_sample_data [acmeRecord] 0 = Except.error PyError.zeroDivisionError := rfl

/-- C5 (amended): a strictly negative `k` yields an empty index list
and hence an empty sample with no error, but `k = 0` with a non-empty
input raises `ZeroDivisionError`. -/
theorem sample_size_nonpositive (full : List Record) (k : Int) :
    (k < 0 → create_sample_data full k = Except.ok [])
    ∧ (k = 0 → full ≠ [] → create_sample_data full k = Except.error PyError.zeroDivisionError) := by
  constructor
  · intro hk
    simp only [create_sample_data]
    rw [if_neg (by omega), if_neg (by omega)]
    have hz : k.toNat = 0 := by omega
    rw [hz]
    rfl
  · intro hk hne
    subst hk
    have hpos : 0 < full.length := List.length_pos.mpr hne
    simp only [create_sample_data]
    rw [if_neg (by omega), if_true]

/-- C5 witness: both branches of the amended theorem at a concrete
one-record input, with `k = -1` and `k = 0`. -/
theorem sample_size_nonpositive_witness :
    ((-1 : Int) < 0) ∧ create_sample_data [acmeRecord] (-1) = Except.ok [] ∧
    (([acmeRecord] : List Record) ≠ []) ∧
    create_sample_data [acmeRecord] 0 = Except.error PyError.zeroDivisionError :=
  ⟨by decide, (sample_size_nonpositive [acmeRecord] (-1)).1 (by decide),
    by simp, (sample_size_nonpositive [acmeRecord] 0).2 rfl (by simp)⟩

/-- C6 counterexample: a 200 response whose body parses to the JSON
object (the empty mapping, not an array) is returned by
`fetch_seed_data` as a success — the empty mapping has a length, so
the fetch log line prints, and the source never checks the parsed
value's shape; the non-array reaches the rest of the pipeline. -/
theorem fetch_nonarray_cex :
    fetch_seed_data 200 (some (Json.obj [])) = Except.ok (Json.obj [])
    ∧ (Json.obj []).isArr = false := ⟨rfl, rfl⟩

/-- C6 (amended): on a 200 response `fetch_seed_data` raises only on
a body that is not valid JSON (`JSONDecodeError`) or on a parsed
scalar, where the `len(data)` call of the success message raises
`TypeError`; a parsed non-array that supports `len` — a mapping or a
string — is returned unchanged rather than rejected with a
`ParseError`. -/
theorem fetch_returns_parsed_value (v : Json) (_hv : v.isArr = false) :
    ((∃ l, pyLen v = some l) → fetch_seed_data 200 (some v) = Except.ok v)
    ∧ (pyLen v = none → fetch_seed_data 200 (some v) = Except.error PyError.typeError)
    ∧ fetch_seed_data 200 none = Except.error PyError.jsonDecodeError := by
  refine ⟨?_, ?_, rfl⟩
  · rintro ⟨l, hl⟩
    simp [fetch_seed_data, hl]
  · intro hl
    simp [fetch_seed_data, hl]

/-- C6 witness: the amended theorem at two concrete non-array bodies —
a string, which `len` accepts and the fetcher returns, and a number,
on which `len` raises `TypeError`. -/
theorem fetch_returns_parsed_value_witness :
    (Json.str "hi").isArr = false ∧
    (∃ l, pyLen (Json.str "hi") = some l) ∧
    fetch_seed_data 200 (some (Json.str "hi")) = Except.ok (Json.str "hi") ∧
    (Json.num 5).isArr = false ∧
    pyLen (Json.num 5) = none ∧
    fetch_seed_data 200 (some (Json.num 5)) = Except.error PyError.typeError :=
  ⟨rfl, ⟨2, rfl⟩, (fetch_returns_parsed_value (Json.str "hi") rfl).1 ⟨2, rfl⟩,
    rfl, rfl, (fetch_returns_parsed_value (Json.num 5) rfl).2.1 rfl⟩

/-- C7: the process exit code is 0 exactly when fetch, sampling, write
and post-write validation all succeed, and it is 1 otherwise (every
stage failure is caught at the top level, and a failed validation is
an explicit `sys.exit(1)`). -/
theorem main_exit_code_iff (status : Int) (body : Option (List Record)) (k : Int)
    (writeOk : Bool) (w : World) :
    ((run_main status body k writeOk w).1 = 0 ↔
      (status = 200 ∧ writeOk = true ∧ ∃ full sample, body = some full
        ∧ create_sample_data full k = Except.ok sample
        ∧ validate_sample_data (Json.arr (sample.map record_to_json)) = true))
    ∧ ((run_main status body k writeOk w).1 = 0 ∨ (run_main status body k writeOk w).1 = 1) := by
  by_cases hst : status = 200
  · subst hst
    cases body with
    | none => simp [run_main]
    | some full =>
      cases hcr : create_sample_data full k with
      | error e => simp [run_main, hcr]
      | ok sample =>
        cases writeOk with
        | false => simp [run_main, hcr]
        | true =>
          by_cases hval : validate_sample_data (Json.arr (sample.map record_to_json)) = true
          · simp [run_main, hcr, save_sample_data, hval]
          · simp only [Bool.not_eq_true] at hval
            simp [run_main, hcr, save_sample_data, hval]
  · simp [run_main, hst]

/-- C8: when the response body is malformed JSON the process exits
with code 1 and the output file is untouched — no file appears at the
output path and a pre-existing file keeps its contents, because the
fetch failure happens before the write stage is ever reached. -/
theorem malformed_json_leaves_file (k : Int) (writeOk : Bool) (w : World) :
    (run_main 200 none k writeOk w).1 = 1
    ∧ (run_main 200 none k writeOk w).2.file = w.file := ⟨rfl, rfl⟩

/-- C9 counterexample: writing the empty sample and validating the
written file fails (the validator rejects an empty array with "No
servers in sample data"), so the round trip does not pass for every
sample list. -/
theorem roundtrip_cex :
    (save_sample_data [] { file := none }).file =
      some (Json.arr (([] : List Record).map record_to_json))
    ∧ validate_sample_data (Json.arr (([] : List Record).map record_to_json)) = false :=
  ⟨rfl, rfl⟩

/-- C9 (amended): for every non-empty sample whose records all carry a
description and a version (as every rewritten record does), writing it
with `save_sample_data` and validating the written document passes the
field-presence checks and sees the same record count. -/
theorem save_validate_roundtrip (sample : List Record) (w : World)
    (h1 : sample ≠ [])
    (h2 : ∀ r ∈ sample, (∃ d, r.description = some d) ∧ ∃ v, r.version = some v) :
    (save_sample_data sample w).file = some (Json.arr (sample.map record_to_json))
    ∧ (sample.map record_to_json).length = sample.length
    ∧ validate_sample_data (Json.arr (sample.map record_to_json)) = true := by
  refine ⟨rfl, List.length_map sample record_to_json, ?_⟩
  simp only [validate_sample_data]
  rw [if_neg (by simp [List.length_map, h1])]
  rw [List.all_eq_true]
  intro j hj
  rcases List.mem_map.mp hj with ⟨r, hr, rfl⟩
  rcases h2 r hr with ⟨⟨d, hd⟩, ⟨v, hv⟩⟩
  exact record_json_fields r d v hd hv

/-- C9 witness: the amended theorem at a one-record sample with all
fields present, written over an absent file. -/
theorem save_validate_roundtrip_witness :
    (([demoFullRecord] : List Record) ≠ []) ∧
    ((save_sample_data [demoFullRecord] { file := none }).file =
        some (Json.arr ([demoFullRecord].map record_to_json))
      ∧ ([demoFullRecord].map record_to_json).length = [demoFullRecord].length
      ∧ validate_sample_data (Json.arr ([demoFullRecord].map record_to_json)) = true) :=
  ⟨by simp, save_validate_roundtrip [demoFullRecord] { file := none } (by simp)
    (fun r hr => by
      rcases List.mem_singleton.mp hr with rfl
      exact ⟨⟨"desc", rfl⟩, ⟨"1.2.3", rfl⟩⟩)⟩

/-- C10: the sampling step only ever changes the `name`, `description`
and `version` fields of the records it selects: the transformer keeps
every other field (`extra`) of a selected record, the in-place effect
on `full_data` keeps records at unselected positions exactly as they
were, and at every position the fields outside the three rewritten
ones are unchanged. -/
theorem sample_frame_condition (full : List Record) (k : Int) :
    (∀ r : Record, (transform_server r).extra = r.extra)
    ∧ (mutate_full_data full k).length = full.length
    ∧ (∀ i : Nat, ((i : Int) ∉ selected_indices full k) →
        (mutate_full_data full k)[i]? = full[i]?)
    ∧ (∀ i : Nat,
        ((mutate_full_data full k)[i]?).map Record.extra = (full[i]?).map Record.extra) := by
  refine ⟨fun r => rfl, mutateAux_length _ full 0, ?_, ?_⟩
  · intro i hmem
    rw [mutate_full_data, mutateAux_lookup]
    simp only [Nat.zero_add]
    cases full[i]? with
    | none => rfl
    | some r => simp [hmem]
  · intro i
    rw [mutate_full_data, mutateAux_lookup]
    simp only [Nat.zero_add]
    cases full[i]? with
    | none => rfl
    | some r =>
      by_cases hc : ((i : Int) ∈ selected_indices full k) <;>
        simp [hc, transform_server_extra]

/-- C10 witness: the frame condition at a one-record input with
`k = 5` (no index selected, position 0 untouched). -/
theorem sample_frame_condition_witness :
    ((0 : Int) ∉ selected_indices [acmeRecord] 5) ∧
    (mutate_full_data [acmeRecord] 5)[0]? = ([acmeRecord] : List Record)[0]? ∧
    (transform_server acmeRecord).extra = acmeRecord.extra ∧
    (mutate_full_data [acmeRecord] 5).length = ([acmeRecord] : List Record).length ∧
    ((mutate_full_data [acmeRecord] 5)[0]?).map Record.extra =
      (([acmeRecord] : List Record)[0]?).map Record.extra :=
  ⟨by decide, (sample_frame_condition [acmeRecord] 5).2.2.1 0 (by decide),
    (sample_frame_condition [acmeRecord] 5).1 acmeRecord,
    (sample_frame_condition [acmeRecord] 5).2.1,
    (sample_frame_condition [acmeRecord] 5).2.2.2 0⟩
